import Mathlib

/-!
Shallow embedding of `newsfeed_media_dl.py` (newsfeed media downloader).

The script scans syndication feeds, filters entries by title pattern and
recency, dispatches matching links to an external downloader, and persists a
per-feed watermark.  External collaborators (feed retrieval via `feedparser`,
the regex engine's pattern compiler, the downloader subprocesses, the clock,
the filesystem) are modelled as inputs in a `World` record; the orchestration
logic itself is translated function by function from the source.

Conventions:
* Python `datetime` values are modelled by the six-field `DateTime` structure;
  comparison is lexicographic on (year, month, day, hour, minute, second),
  realised through the order-reflecting encoding `DateTime.key` (faithful for
  the in-range field values every Python `datetime` carries).
* JSON documents are modelled by `JVal`; JSON numbers are modelled as integers
  (the settings fields the program reads are integral).
* Python exceptions are modelled by `PyErr` / `RunErr` values: exceptions the
  source catches are handled in the translation exactly where the source
  catches them, exceptions it does not catch surface in the result.
* Observable actions (network fetches, subprocess invocations, watermark file
  writes, the logged watermark warning) are recorded as a trace of `Ev` events.
-/

namespace NewsfeedMediaDl

/-- Calendar timestamp with second precision, mirroring a Python `datetime`
value (`microsecond` is always 0 in this program: entry times come through
`time.mktime`, watermark times through `strptime` without `%f`). -/
structure DateTime where
  year : Nat
  month : Nat
  day : Nat
  hour : Nat
  minute : Nat
  second : Nat
  deriving DecidableEq

/-- Order-reflecting encoding of a timestamp.  For in-range fields
(month ≤ 12 < 13, day ≤ 31 < 32, hour < 24, minute < 60, second < 60) the
encoding is injective and compares exactly like Python's lexicographic
`datetime` comparison. -/
def DateTime.key (d : DateTime) : Nat :=
  ((((d.year * 13 + d.month) * 32 + d.day) * 24 + d.hour) * 60 + d.minute) * 60 + d.second

/-- Python `a < b` on datetimes. -/
def dtLt (a b : DateTime) : Bool :=
  decide (a.key < b.key)

/-- Python `max(a, b)`: the second argument wins only when strictly larger. -/
def dtMax (a b : DateTime) : DateTime :=
  if dtLt a b then b else a

/-- Gregorian leap-year test. -/
def isLeap (y : Nat) : Bool :=
  y % 4 == 0 && (y % 100 != 0 || y % 400 == 0)

/-- Length of a month in the proleptic Gregorian calendar. -/
def daysInMonth (y m : Nat) : Nat :=
  if m = 2 then (if isLeap y then 29 else 28)
  else if m = 4 ∨ m = 6 ∨ m = 9 ∨ m = 11 then 30
  else 31

/-- Step one calendar day backwards, keeping the time-of-day fields. -/
def prevDate (d : DateTime) : DateTime :=
  if 1 < d.day then { d with day := d.day - 1 }
  else if 1 < d.month then { d with month := d.month - 1, day := daysInMonth d.year (d.month - 1) }
  else { d with year := d.year - 1, month := 12, day := 31 }

/-- Step one calendar day forwards, keeping the time-of-day fields. -/
def nextDate (d : DateTime) : DateTime :=
  if d.day < daysInMonth d.year d.month then { d with day := d.day + 1 }
  else if d.month < 12 then { d with month := d.month + 1, day := 1 }
  else { d with year := d.year + 1, month := 1, day := 1 }

/-- Apply a day-step function `n` times. -/
def stepDays (f : DateTime → DateTime) : Nat → DateTime → DateTime
  | 0, d => d
  | n + 1, d => stepDays f n (f d)

/-- Python `now.replace(hour=0, minute=0, second=0, microsecond=0)`. -/
def midnightOf (d : DateTime) : DateTime :=
  { d with hour := 0, minute := 0, second := 0 }

/-- Source, `download_new`:
`start_time = datetime.now().replace(hour=0, minute=0, second=0, microsecond=0)
- timedelta(days=maxage)`.  A negative `maxage` (Python accepts it) shifts the
date forwards. -/
def globalStart (now : DateTime) (maxage : Int) : DateTime :=
  if 0 ≤ maxage then stepDays prevDate maxage.toNat (midnightOf now)
  else stepDays nextDate (-maxage).toNat (midnightOf now)

/-- Zero-pad a decimal rendering to width `w`. -/
def padNum (w n : Nat) : String :=
  let s := toString n
  String.mk (List.replicate (w - s.length) '0') ++ s

/-- Python `datetime.isoformat()` for a microsecond-free value:
`YYYY-MM-DDTHH:MM:SS`. -/
def DateTime.isoformat (d : DateTime) : String :=
  padNum 4 d.year ++ "-" ++ padNum 2 d.month ++ "-" ++ padNum 2 d.day ++ "T" ++
    padNum 2 d.hour ++ ":" ++ padNum 2 d.minute ++ ":" ++ padNum 2 d.second

/-- Numeric value of a decimal digit character. -/
def digitVal (c : Char) : Nat :=
  c.toNat - '0'.toNat

/-- Consume one expected literal character. -/
def expectC (ch : Char) : List Char → Option (List Char)
  | [] => none
  | c :: rest => if c = ch then some rest else none

/-- Consume exactly four digits (the `%Y` directive of `strptime`). -/
def parse4 : List Char → Option (Nat × List Char)
  | a :: b :: c :: d :: rest =>
    if a.isDigit && b.isDigit && c.isDigit && d.isDigit then
      some (digitVal a * 1000 + digitVal b * 100 + digitVal c * 10 + digitVal d, rest)
    else none
  | _ => none

/-- Consume a one- or two-digit field in continuation style, with the
two-digit reading preferred and backtracking to one digit when the
continuation fails — mirroring the alternation-with-backtracking regexes
`strptime` uses for `%m`, `%d`, `%H`, `%M`, `%S` (two-digit alternatives
listed first).  `ok2` / `ok1` are the value constraints of the two- and
one-digit alternatives. -/
def field2or1 (ok2 ok1 : Nat → Bool) (cs : List Char)
    (k : Nat → List Char → Option DateTime) : Option DateTime :=
  match cs with
  | c1 :: c2 :: rest =>
    if c1.isDigit && c2.isDigit && ok2 (digitVal c1 * 10 + digitVal c2) then
      (k (digitVal c1 * 10 + digitVal c2) rest).orElse fun _ =>
        if c1.isDigit && ok1 (digitVal c1) then k (digitVal c1) (c2 :: rest) else none
    else if c1.isDigit && ok1 (digitVal c1) then k (digitVal c1) (c2 :: rest)
    else none
  | [c1] => if c1.isDigit && ok1 (digitVal c1) then k (digitVal c1) [] else none
  | [] => none

/-- Python `datetime.strptime(s, "%Y-%m-%dT%H:%M:%S")`, `none` meaning the
`ValueError` it raises on mismatch.  Field regexes follow `_strptime.TimeRE`
(`%m`: `1[0-2]|0[1-9]|[1-9]`, `%d`: `3[01]|[12]\d|0[1-9]|[1-9]`, `%H`:
`2[0-3]|[0-1]\d|\d`, `%M`: `[0-5]\d|\d`, `%S`: `6[0-1]|[0-5]\d|\d`); the whole
string must be consumed, and the final `datetime` construction additionally
requires year ≥ 1, day within the month, and second ≤ 59. -/
def isoParse (s : String) : Option DateTime :=
  match parse4 s.data with
  | none => none
  | some (y, r1) =>
    match expectC '-' r1 with
    | none => none
    | some r2 =>
      field2or1 (fun v => decide (1 ≤ v ∧ v ≤ 12)) (fun v => decide (1 ≤ v)) r2 fun mo r3 =>
        match expectC '-' r3 with
        | none => none
        | some r4 =>
          field2or1 (fun v => decide (1 ≤ v ∧ v ≤ 31)) (fun v => decide (1 ≤ v)) r4 fun dy r5 =>
            match expectC 'T' r5 with
            | none => none
            | some r6 =>
              field2or1 (fun v => decide (v ≤ 23)) (fun _ => true) r6 fun h r7 =>
                match expectC ':' r7 with
                | none => none
                | some r8 =>
                  field2or1 (fun v => decide (v ≤ 59)) (fun _ => true) r8 fun mi r9 =>
                    match expectC ':' r9 with
                    | none => none
                    | some r10 =>
                      field2or1 (fun v => decide (v ≤ 61)) (fun _ => true) r10 fun sec r11 =>
                        if r11 = [] ∧ 1 ≤ y ∧ dy ≤ daysInMonth y mo ∧ sec ≤ 59 then
                          some ⟨y, mo, dy, h, mi, sec⟩
                        else none

/-- JSON value, as produced by `json.loads`.  Numbers are modelled as
integers. -/
inductive JVal where
  | jnull
  | jbool (b : Bool)
  | jnum (n : Int)
  | jstr (s : String)
  | jarr (elems : List JVal)
  | jobj (fields : List (String × JVal))

/-- Lookup in a JSON object viewed as a Python dict (`kvs[k]` when present). -/
def getKey (kvs : List (String × JVal)) (k : String) : Option JVal :=
  match kvs with
  | [] => none
  | (k', v) :: rest => if k' = k then some v else getKey rest k

/-- Python dict assignment `d[k] = v`: replace in place when the key exists,
append otherwise (insertion order preserved, as for Python dicts). -/
def setKey (kvs : List (String × JVal)) (k : String) (v : JVal) : List (String × JVal) :=
  match kvs with
  | [] => [(k, v)]
  | (k', v') :: rest => if k' = k then (k, v) :: rest else (k', v') :: setKey rest k v

/-- Uncaught-exception kinds this model distinguishes.  `unmodeled` marks a
state outside the model's scope (a non-string watermark key reaching
`json.dumps` key coercion); no claim exercises it. -/
inductive PyErr where
  | typeError
  | valueError
  | attributeError
  | osError
  | unmodeled
  deriving DecidableEq

/-- Outcome classification for `download_new`: the script's own
`InvalidInputDataException` versus an uncaught Python exception. -/
inductive RunErr where
  | invalidInput (msg : String)
  | py (e : PyErr)
  deriving DecidableEq

/-- Digit-string value; `none` when empty or a non-digit occurs. -/
def digitsToNat (ds : List Char) : Option Nat :=
  if ds ≠ [] ∧ ds.all Char.isDigit then
    some (ds.foldl (fun a c => a * 10 + digitVal c) 0)
  else none

/-- Python `int(s)` on a `str`: surrounding whitespace stripped, optional
sign, then decimal digits; `none` meaning `ValueError`.  (Digit-group
underscores are out of scope.) -/
def strToInt (s : String) : Option Int :=
  let cs := s.data.dropWhile Char.isWhitespace
  let cs := (cs.reverse.dropWhile Char.isWhitespace).reverse
  match cs with
  | '-' :: ds => (digitsToNat ds).map fun n => -(n : Int)
  | '+' :: ds => (digitsToNat ds).map fun n => (n : Int)
  | ds => (digitsToNat ds).map fun n => (n : Int)

/-- Python `int(v)` on a JSON value: numbers (and bools) convert, numeric
strings parse (a non-numeric string is a `ValueError`), and `None` / lists /
objects raise `TypeError`. -/
def pyInt : JVal → Except PyErr Int
  | .jnum n => .ok n
  | .jbool b => .ok (if b then 1 else 0)
  | .jstr s =>
    match strToInt s with
    | some n => .ok n
    | none => .error .valueError
  | _ => .error .typeError

/-- Feed entry as delivered by the external feed retrieval service
(`feedparser.FeedParserDict`): a link, a title (a character list, for pattern
matching), and optional `published_parsed` / `updated_parsed` timestamps.
Entries without a title are outside the model (the source would fail on them
exactly as on missing timestamps). -/
structure Entry where
  published : Option DateTime
  updated : Option DateTime
  title : List Char
  link : String
  deriving DecidableEq

/-- Source, `get_entry_datetime`: try `entry.published_parsed`, falling back
to `entry.updated_parsed` on `AttributeError`; `none` models the
`AttributeError` that escapes when both are missing.  (`time.mktime` composed
with `datetime.fromtimestamp` is an order-preserving conversion and is
absorbed into the timestamp representation.) -/
def get_entry_datetime (e : Entry) : Option DateTime :=
  match e.published with
  | some t => some t
  | none => e.updated

/-- `get_entry_datetime` with the escaping `AttributeError` made explicit. -/
def entryTimeE (e : Entry) : Except PyErr DateTime :=
  match get_entry_datetime e with
  | some t => .ok t
  | none => .error .attributeError

/-- Compiled pattern, as produced by `re.compile`. -/
abbrev Pattern := RegularExpression Char

/-- Python `re.match(pattern, s)` is anchored at the start of the string but
is not a full-string match: it succeeds iff some prefix of `s` (including the
empty or the whole one) is in the pattern's language. -/
def pyMatch (r : Pattern) (s : List Char) : Bool :=
  s.inits.any fun p => r.rmatch p

/-- Filter condition of the source's list comprehension:
`get_entry_datetime(e) > newer_than and re.match(regex, e.title)`. -/
def entryPass (r : Pattern) (newerThan : DateTime) (e : Entry) : Bool :=
  match get_entry_datetime e with
  | some t => dtLt newerThan t && pyMatch r e.title
  | none => false

/-- The list comprehension of `extract_items`, evaluated entry by entry; an
entry with neither timestamp raises before any later entry is examined. -/
def collectLinks (r : Pattern) (newerThan : DateTime) : List Entry → Except PyErr (List String)
  | [] => .ok []
  | e :: rest =>
    match get_entry_datetime e with
    | none => .error .attributeError
    | some t =>
      (collectLinks r newerThan rest).map fun ls =>
        if dtLt newerThan t && pyMatch r e.title then e.link :: ls else ls

/-- The generator `get_entry_datetime(e) for e in content.entries`. -/
def entryTimes : List Entry → Except PyErr (List DateTime)
  | [] => .ok []
  | e :: rest =>
    match get_entry_datetime e with
    | none => .error .attributeError
    | some t => (entryTimes rest).map (t :: ·)

/-- Accumulator step of Python `max`: the next element replaces the current
maximum only when strictly larger. -/
def pickMax (acc x : DateTime) : DateTime :=
  if dtLt acc x then x else acc

/-- Python `max` over a sequence of timestamps: `none` models the
`ValueError` on an empty sequence; on ties the earliest element wins. -/
def maxTimes : List DateTime → Option DateTime
  | [] => none
  | t :: rest => some (rest.foldl pickMax t)

/-- Source, `extract_items(url, regex, newer_than)`: fetch and parse the feed
(the external `feedparser.parse` is the `fetch` argument), collect the links
of entries newer than `newer_than` whose title matches `regex`, and take the
maximum timestamp over all entries. -/
def extract_items (fetch : JVal → List Entry) (url : JVal) (r : Pattern)
    (newerThan : DateTime) : Except PyErr (List String × DateTime) := do
  let vurls ← collectLinks r newerThan (fetch url)
  let ts ← entryTimes (fetch url)
  match maxTimes ts with
  | some newest => .ok (vurls, newest)
  | none => .error .valueError

/-- Outcome of one external downloader invocation (`subprocess.check_call`):
normal exit, non-zero exit (`CalledProcessError`), or failure to start the
program at all (`FileNotFoundError` / `OSError`). -/
inductive DlResult where
  | success
  | exitNonZero
  | startFailure
  deriving DecidableEq

/-- Observable actions of a run, in order of occurrence. -/
inductive Ev where
  | cutoff (url : JVal) (t : DateTime)
  | fetch (url : JVal)
  | dlOk (downloader url : String)
  | dlFail (downloader url : String)
  | persist (store : JVal)
  | warnBadWatermark

/-- Source, `download(vurl, downloader)`: run `check_call([downloader, vurl])`;
a `CalledProcessError` is logged (`dlFail` records the logged URL) and
swallowed, but a failure to start the program is not caught and escapes. -/
def download (runDl : String → String → DlResult) (vurl downloader : String) :
    List Ev × Option PyErr :=
  match runDl downloader vurl with
  | .success => ([.dlOk downloader vurl], none)
  | .exitNonZero => ([.dlFail downloader vurl], none)
  | .startFailure => ([], some .osError)

/-- The `for vurl in vurls: download(vurl, downloader)` loop. -/
def runDls (runDl : String → String → DlResult) (downloader : String) :
    List String → List Ev × Option PyErr
  | [] => ([], none)
  | u :: rest =>
    let (evs, r) := download runDl u downloader
    match r with
    | some e => (evs, some e)
    | none =>
      let (evs', r') := runDls runDl downloader rest
      (evs ++ evs', r')

/-- Source, module constant `SUPPORTED_DOWNLOADERS`. -/
def SUPPORTED_DOWNLOADERS : List String :=
  ["aria2c", "wget", "youtube-dl"]

/-- External collaborators and ambient state of one run: the parsed settings
document, the filesystem (`dirExists` for `os.chdir`; `wmRead` for reading
`.newsfeed_media_dl.json` — `none` is an `IOError`, `some none` a present file
whose content fails to parse as JSON, `some (some j)` a file parsing to `j`),
the feed retrieval service, the regex compiler (total here; an invalid pattern
string's `re.error` is out of scope), the downloader subprocess layer, and the
clock value `datetime.now()` observed by the run. -/
structure World where
  settings : JVal
  dirExists : String → Bool
  wmRead : Option (Option JVal)
  fetch : JVal → List Entry
  compile : String → Pattern
  runDl : String → String → DlResult
  now : DateTime

/-- Best-effort `"%s"` rendering of a JSON value (only used in the
`Unsupported downloader` message for non-string values; composite values are
abbreviated). -/
def pyStr : JVal → String
  | .jnull => "None"
  | .jbool b => if b then "True" else "False"
  | .jnum n => toString n
  | .jstr s => s
  | .jarr _ => "[...]"
  | .jobj _ => "(...)"

/-- Lines 116-124 of the source: `settings["directory"]` (a `KeyError` becomes
`InvalidInputDataException`) followed by `os.chdir` (an `OSError` becomes
`InvalidInputDataException`; a non-string argument raises an uncaught
`TypeError`). -/
def dirStage (kvs : List (String × JVal)) (dirExists : String → Bool) : Except RunErr Unit :=
  match getKey kvs "directory" with
  | none => .error (.invalidInput "No directory given in settings file")
  | some (.jstr d) =>
    if dirExists d then .ok () else
      .error (.invalidInput "Directory given in settings file does not exist")
  | some _ => .error (.py .typeError)

/-- Lines 125-135 of the source: `maxage = int(settings["maxage"])` with
`KeyError` and `TypeError` caught (becoming `InvalidInputDataException`) but
`ValueError` not caught, then the window start computation. -/
def maxageStage (kvs : List (String × JVal)) (now : DateTime) : Except RunErr DateTime :=
  match getKey kvs "maxage" with
  | none => .error (.invalidInput "No time frame given in settings file")
  | some mv =>
    match pyInt mv with
    | .ok n => .ok (globalStart now n)
    | .error .typeError => .error (.invalidInput "Invalid time frame given in settings file")
    | .error e => .error (.py e)

/-- Lines 136-139 of the source: `feeds = settings["feeds"]`. -/
def feedsStage (kvs : List (String × JVal)) : Except RunErr JVal :=
  match getKey kvs "feeds" with
  | none => .error (.invalidInput "No feeds given in settings file")
  | some fv => .ok fv

/-- Settings validation prologue of `download_new` (lines 115-139): directory,
window start, feeds list, in source order.  Subscripting a non-object
settings document raises an uncaught `TypeError`. -/
def settingsStage (settings : JVal) (dirExists : String → Bool) (now : DateTime) :
    Except RunErr (DateTime × JVal) := do
  match settings with
  | .jobj kvs => do
    let _ ← dirStage kvs dirExists
    let start ← maxageStage kvs now
    let feedsVal ← feedsStage kvs
    pure (start, feedsVal)
  | _ => .error (.py .typeError)

/-- Lines 143-154 of the source: read `.newsfeed_media_dl.json`; an `IOError`
degrades to `"{}"`, a JSON parse failure is logged as a warning and degrades
to `{}`. -/
def loadStore : Option (Option JVal) → JVal × List Ev
  | none => (.jobj [], [])
  | some none => (.jobj [], [.warnBadWatermark])
  | some (some j) => (j, [])

/-- Python iteration over the `feeds` value: lists yield their elements,
strings their characters, dicts their keys; other values raise an uncaught
`TypeError` at the `for` statement. -/
def iterElems : JVal → Except PyErr (List JVal)
  | .jarr xs => .ok xs
  | .jstr s => .ok (s.data.map fun c => .jstr (String.mk [c]))
  | .jobj kvs => .ok (kvs.map fun p => .jstr p.1)
  | _ => .error .typeError

/-- Lines 158-163 of the source: extract `url`, `re.compile(feed["regex"])`
and `downloader` from one feed item; `KeyError` and `TypeError` (missing key,
non-object item, non-string regex) become
`InvalidInputDataException("Invalid feeds list")`.  The `url` and
`downloader` values themselves may be any JSON value at this point. -/
def feedFields (fv : JVal) (compile : String → Pattern) :
    Except RunErr (JVal × Pattern × JVal) :=
  match fv with
  | .jobj kvs =>
    match getKey kvs "url" with
    | none => .error (.invalidInput "Invalid feeds list")
    | some urlv =>
      match getKey kvs "regex" with
      | none => .error (.invalidInput "Invalid feeds list")
      | some (.jstr rs) =>
        match getKey kvs "downloader" with
        | none => .error (.invalidInput "Invalid feeds list")
        | some dv => .ok (urlv, compile rs, dv)
      | some _ => .error (.invalidInput "Invalid feeds list")
  | _ => .error (.invalidInput "Invalid feeds list")

/-- Lines 165-167 of the source: the allow-list check.  A non-string
`downloader` value is never in the list, so it too raises the
`Unsupported downloader` error. -/
def checkDownloader (dv : JVal) : Except RunErr String :=
  match dv with
  | .jstr d =>
    if d ∈ SUPPORTED_DOWNLOADERS then .ok d else
      .error (.invalidInput ("Unsupported downloader: " ++ d))
  | other => .error (.invalidInput ("Unsupported downloader: " ++ pyStr other))

/-- Lines 168-173 of the source: the per-feed cutoff
`max(start_time, strptime(last_run[url], "%Y-%m-%dT%H:%M:%S"))`, with
`KeyError` (no watermark) caught and the cutoff defaulting to `start_time`.
A malformed watermark string raises an uncaught `ValueError`, a non-string
watermark value or a non-dict store an uncaught `TypeError`. -/
def cutoffFor (start : DateTime) (store : JVal) (url : JVal) : Except PyErr DateTime :=
  match store with
  | .jobj kvs =>
    match url with
    | .jstr u =>
      match getKey kvs u with
      | none => .ok start
      | some (.jstr s) =>
        match isoParse s with
        | some t => .ok (dtMax start t)
        | none => .error .valueError
      | some _ => .error .typeError
    | _ => .ok start
  | _ => .error .typeError

/-- Lines 186-189 of the source: `last_run[url] = newest.isoformat()` followed
by rewriting `.newsfeed_media_dl.json` (the write itself is the `persist`
event recorded by `processFeed`).  A non-string url key would flow into
`json.dumps` key coercion, which is outside this model. -/
def storeSet (st : JVal) (url : JVal) (v : JVal) : Except PyErr JVal :=
  match st, url with
  | .jobj kvs, .jstr u => .ok (.jobj (setKey kvs u v))
  | .jobj _, _ => .error .unmodeled
  | _, _ => .error .typeError

/-- One iteration of the feed loop (lines 157-189 of the source): field
extraction and allow-list check, cutoff computation, feed fetch and filtering,
sequential downloads, then the watermark update and its immediate persist.
The returned store is the input store for the next feed; events record what
the iteration did before the orchestration either continued or aborted. -/
def processFeed (w : World) (start : DateTime) (st : JVal) (fv : JVal) :
    List Ev × Except RunErr JVal :=
  match feedFields fv w.compile with
  | .error e => ([], .error e)
  | .ok (urlv, pat, dv) =>
    match checkDownloader dv with
    | .error e => ([], .error e)
    | .ok d =>
      match cutoffFor start st urlv with
      | .error e => ([], .error (.py e))
      | .ok newerThan =>
        match extract_items w.fetch urlv pat newerThan with
        | .error e => ([.cutoff urlv newerThan, .fetch urlv], .error (.py e))
        | .ok (vurls, newest) =>
          let (dlEvs, dlErr) := runDls w.runDl d vurls
          match dlErr with
          | some e => ([.cutoff urlv newerThan, .fetch urlv] ++ dlEvs, .error (.py e))
          | none =>
            match storeSet st urlv (.jstr newest.isoformat) with
            | .error e => ([.cutoff urlv newerThan, .fetch urlv] ++ dlEvs, .error (.py e))
            | .ok st' =>
              ([.cutoff urlv newerThan, .fetch urlv] ++ dlEvs ++ [.persist st'], .ok st')

/-- The feed loop: each feed is processed with the store left by its
predecessor; the first error aborts the remainder but keeps the events
already produced. -/
def runFeeds (w : World) (start : DateTime) : JVal → List JVal → List Ev × Option RunErr
  | _, [] => ([], none)
  | st, fv :: rest =>
    let (evs, r) := processFeed w start st fv
    match r with
    | .error e => (evs, some e)
    | .ok st' =>
      let (evs', r') := runFeeds w start st' rest
      (evs ++ evs', r')

/-- Source, `download_new(settings_file)`: settings validation, watermark
store load, then the feed loop.  The first component is the trace of
observable actions, the second the error that escaped `download_new`, if
any (the reading and JSON parsing of the settings file itself precede the
model; `w.settings` is the parsed document). -/
def download_new (w : World) : List Ev × Option RunErr :=
  match settingsStage w.settings w.dirExists w.now with
  | .error e => ([], some e)
  | .ok (start, feedsVal) =>
    let (st0, evs0) := loadStore w.wmRead
    match iterElems feedsVal with
    | .error e => (evs0, some (.py e))
    | .ok fvs =>
      let (evs, r) := runFeeds w start st0 fvs
      (evs0 ++ evs, r)

/-!
### Concrete sample data

Closed feeds, entries and worlds used by the witness and counterexample
theorems below.
-/

/-- Entry titled `Breaking News`, published the day before `sampleNow`. -/
def entA : Entry :=
  { published := some ⟨2021, 5, 2, 10, 0, 0⟩, updated := none,
    title := "Breaking News".data, link := "http://a/ep1" }

/-- Entry titled `Breaking Update`, published on the `sampleNow` day. -/
def entB : Entry :=
  { published := some ⟨2021, 5, 3, 9, 0, 0⟩, updated := none,
    title := "Breaking Update".data, link := "http://a/ep2" }

/-- Entry titled `Other`, the newest entry of the sample feed. -/
def entC : Entry :=
  { published := some ⟨2021, 5, 3, 11, 0, 0⟩, updated := none,
    title := "Other".data, link := "http://a/ep3" }

/-- Compiled sample pattern: the single character `B`. -/
def patB : Pattern :=
  RegularExpression.char 'B'

/-- Well-formed sample feed configuration. -/
def feedA : JVal :=
  .jobj [("url", .jstr "http://a"), ("regex", .jstr "B"), ("downloader", .jstr "wget")]

/-- Feed configuration whose `downloader` is not in the allow-list. -/
def feedCurl : JVal :=
  .jobj [("url", .jstr "http://b"), ("regex", .jstr "B"), ("downloader", .jstr "curl")]

/-- Feed configuration with a missing `regex` key. -/
def feedBad : JVal :=
  .jobj [("url", .jstr "http://b")]

/-- Settings document with the given feeds list. -/
def sampleSettings (feeds : List JVal) : JVal :=
  .jobj [("directory", .jstr "/data"), ("maxage", .jnum 7), ("feeds", .jarr feeds)]

/-- World in which every external collaborator behaves: the directory exists,
the watermark file is absent, the feed has the three sample entries, every
pattern compiles to `patB`, every download succeeds, and the clock reads
2021-05-03 12:30:45. -/
def sampleWorld : World :=
  { settings := sampleSettings [feedA],
    dirExists := fun _ => true,
    wmRead := none,
    fetch := fun _ => [entA, entB, entC],
    compile := fun _ => patB,
    runDl := fun _ _ => .success,
    now := ⟨2021, 5, 3, 12, 30, 45⟩ }

/-- Sample world whose `maxage` is the non-numeric string `"abc"`. -/
def worldBadMaxage : World :=
  { sampleWorld with
    settings := .jobj [("directory", .jstr "/data"), ("maxage", .jstr "abc"),
      ("feeds", .jarr [])] }

/-- Sample world with a well-formed first feed and a second feed whose
downloader is `curl`. -/
def worldCurl : World :=
  { sampleWorld with settings := sampleSettings [feedA, feedCurl] }

/-- Sample world whose watermark store parses but maps the feed URL to the
non-timestamp string `"garbage"`. -/
def worldBadWatermark : World :=
  { sampleWorld with wmRead := some (some (.jobj [("http://a", .jstr "garbage")])) }

/-!
### Lemmas about the feed filter
-/

theorem pyMatch_iff (r : Pattern) (s : List Char) :
    pyMatch r s = true ↔ ∃ p, p <+: s ∧ p ∈ r.matches' := by
  unfold pyMatch
  rw [List.any_eq_true]
  constructor
  · rintro ⟨p, hp, hm⟩
    exact ⟨p, (List.mem_inits _ _).1 hp, (RegularExpression.rmatch_iff_matches' r p).1 hm⟩
  · rintro ⟨p, hp, hm⟩
    exact ⟨p, (List.mem_inits _ _).2 hp, (RegularExpression.rmatch_iff_matches' r p).2 hm⟩

theorem entryPass_iff (r : Pattern) (c : DateTime) (e : Entry) :
    entryPass r c e = true ↔
      (∃ t, get_entry_datetime e = some t ∧ c.key < t.key) ∧
        ∃ p, p <+: e.title ∧ p ∈ r.matches' := by
  unfold entryPass
  cases hgd : get_entry_datetime e with
  | none => simp
  | some t => simp [Bool.and_eq_true, dtLt, pyMatch_iff]

theorem collectLinks_ok_timed {r : Pattern} {nt : DateTime} {l : List Entry} {v : List String}
    (h : collectLinks r nt l = .ok v) : ∀ e ∈ l, get_entry_datetime e ≠ none := by
  induction l generalizing v with
  | nil => simp
  | cons e rest ih =>
    simp only [collectLinks] at h
    cases hgd : get_entry_datetime e with
    | none => rw [hgd] at h; exact absurd h (by simp)
    | some t =>
      rw [hgd] at h
      cases hrec : collectLinks r nt rest with
      | error e' => rw [hrec] at h; exact absurd h (by simp [Except.map])
      | ok v' =>
        intro x hx
        rcases List.mem_cons.1 hx with rfl | hx'
        · simp [hgd]
        · exact ih hrec x hx'

theorem collectLinks_eq (r : Pattern) (nt : DateTime) (l : List Entry)
    (h : ∀ e ∈ l, get_entry_datetime e ≠ none) :
    collectLinks r nt l = .ok ((l.filter (entryPass r nt)).map (fun e => e.link)) := by
  induction l with
  | nil => simp [collectLinks]
  | cons e rest ih =>
    have he : get_entry_datetime e ≠ none := h e (List.mem_cons_self e rest)
    cases hgd : get_entry_datetime e with
    | none => exact absurd hgd he
    | some t =>
      have ih' := ih fun x hx => h x (List.mem_cons_of_mem _ hx)
      have hep : entryPass r nt e = (dtLt nt t && pyMatch r e.title) := by
        simp [entryPass, hgd]
      cases hc : (dtLt nt t && pyMatch r e.title) with
      | false => simp [collectLinks, hgd, ih', Except.map, List.filter_cons, hep, hc]
      | true => simp [collectLinks, hgd, ih', Except.map, List.filter_cons, hep, hc]

theorem entryTimes_mem_src {l : List Entry} {ts : List DateTime}
    (h : entryTimes l = .ok ts) : ∀ t ∈ ts, ∃ e ∈ l, get_entry_datetime e = some t := by
  induction l generalizing ts with
  | nil =>
    simp only [entryTimes, Except.ok.injEq] at h
    subst h; simp
  | cons e rest ih =>
    simp only [entryTimes] at h
    cases hgd : get_entry_datetime e with
    | none => rw [hgd] at h; exact absurd h (by simp)
    | some t0 =>
      rw [hgd] at h
      cases hrec : entryTimes rest with
      | error e' => rw [hrec] at h; exact absurd h (by simp [Except.map])
      | ok ts' =>
        rw [hrec] at h
        simp only [Except.map, Except.ok.injEq] at h
        subst h
        intro t ht
        rcases List.mem_cons.1 ht with rfl | ht'
        · exact ⟨e, List.mem_cons_self _ _, hgd⟩
        · obtain ⟨e', he', hgd'⟩ := ih hrec t ht'
          exact ⟨e', List.mem_cons_of_mem _ he', hgd'⟩

theorem entryTimes_src_mem {l : List Entry} {ts : List DateTime}
    (h : entryTimes l = .ok ts) : ∀ e ∈ l, ∃ t ∈ ts, get_entry_datetime e = some t := by
  induction l generalizing ts with
  | nil => simp
  | cons e rest ih =>
    simp only [entryTimes] at h
    cases hgd : get_entry_datetime e with
    | none => rw [hgd] at h; exact absurd h (by simp)
    | some t0 =>
      rw [hgd] at h
      cases hrec : entryTimes rest with
      | error e' => rw [hrec] at h; exact absurd h (by simp [Except.map])
      | ok ts' =>
        rw [hrec] at h
        simp only [Except.map, Except.ok.injEq] at h
        subst h
        intro x hx
        rcases List.mem_cons.1 hx with rfl | hx'
        · exact ⟨t0, List.mem_cons_self _ _, hgd⟩
        · obtain ⟨t', ht', hgd'⟩ := ih hrec x hx'
          exact ⟨t', List.mem_cons_of_mem _ ht', hgd'⟩

theorem foldl_pickMax_mem (l : List DateTime) : ∀ a, l.foldl pickMax a ∈ a :: l := by
  induction l with
  | nil => intro a; simp
  | cons x xs ih =>
    intro a
    simp only [List.foldl]
    rcases List.mem_cons.1 (ih (pickMax a x)) with h1 | h1
    · rw [h1]
      unfold pickMax
      cases hc : dtLt a x <;> simp [hc]
    · exact List.mem_cons_of_mem _ (List.mem_cons_of_mem _ h1)

theorem key_le_pickMax_left (a x : DateTime) : a.key ≤ (pickMax a x).key := by
  unfold pickMax
  cases hc : dtLt a x with
  | false => simp
  | true =>
    simp only [if_pos rfl, if_true]
    exact Nat.le_of_lt (of_decide_eq_true hc)

theorem key_le_pickMax_right (a x : DateTime) : x.key ≤ (pickMax a x).key := by
  unfold pickMax
  cases hc : dtLt a x with
  | false =>
    simp only [Bool.false_eq_true, if_false]
    exact Nat.le_of_not_lt (of_decide_eq_false hc)
  | true => simp

theorem foldl_pickMax_ge (l : List DateTime) :
    ∀ a, a.key ≤ (l.foldl pickMax a).key ∧ ∀ t ∈ l, t.key ≤ (l.foldl pickMax a).key := by
  induction l with
  | nil => intro a; simp
  | cons x xs ih =>
    intro a
    have h := ih (pickMax a x)
    refine ⟨le_trans (key_le_pickMax_left a x) h.1, ?_⟩
    intro t ht
    rcases List.mem_cons.1 ht with rfl | ht'
    · exact le_trans (key_le_pickMax_right a t) h.1
    · exact h.2 t ht'

theorem maxTimes_mem {l : List DateTime} {m : DateTime} (h : maxTimes l = some m) : m ∈ l := by
  cases l with
  | nil => exact absurd h (by simp [maxTimes])
  | cons t rest =>
    simp only [maxTimes, Option.some.injEq] at h
    rw [← h]
    exact foldl_pickMax_mem rest t

theorem maxTimes_ge {l : List DateTime} {m : DateTime} (h : maxTimes l = some m) :
    ∀ t ∈ l, t.key ≤ m.key := by
  cases l with
  | nil => exact absurd h (by simp [maxTimes])
  | cons t0 rest =>
    simp only [maxTimes, Option.some.injEq] at h
    intro t ht
    rcases List.mem_cons.1 ht with rfl | ht'
    · rw [← h]; exact (foldl_pickMax_ge rest t).1
    · rw [← h]; exact (foldl_pickMax_ge rest t0).2 t ht'

theorem extract_items_ok_elim {fetch : JVal → List Entry} {url : JVal} {r : Pattern}
    {nt : DateTime} {v : List String} {m : DateTime}
    (h : extract_items fetch url r nt = .ok (v, m)) :
    collectLinks r nt (fetch url) = .ok v ∧
      ∃ ts, entryTimes (fetch url) = .ok ts ∧ maxTimes ts = some m := by
  unfold extract_items at h
  cases h1 : collectLinks r nt (fetch url) with
  | error e => rw [h1] at h; exact absurd h (by simp [Bind.bind, Except.bind])
  | ok v' =>
    rw [h1] at h
    cases h2 : entryTimes (fetch url) with
    | error e => rw [h2] at h; exact absurd h (by simp [Bind.bind, Except.bind])
    | ok ts =>
      rw [h2] at h
      simp only [Bind.bind, Except.bind] at h
      cases h3 : maxTimes ts with
      | none => rw [h3] at h; exact absurd h (by simp)
      | some m' =>
        rw [h3] at h
        simp only [Except.ok.injEq, Prod.mk.injEq] at h
        obtain ⟨hv, hm⟩ := h
        subst hv; subst hm
        exact ⟨rfl, ts, rfl, h3⟩

theorem extract_items_empty (fetch : JVal → List Entry) (url : JVal) (r : Pattern)
    (nt : DateTime) (h : fetch url = []) :
    extract_items fetch url r nt = .error .valueError := by
  unfold extract_items
  rw [h]
  rfl

/-!
### Claim theorems: the feed filter and the timestamp resolver
-/

/-- C1: for every feed, cutoff and compiled pattern, an entry's link appears
in the list returned by `extract_items` iff the entry's resolved timestamp is
strictly greater than the cutoff and some prefix of its title (a match
anchored at position zero — not necessarily the whole title, never an inner
substring) lies in the pattern's language; the returned links are the links
of the passing entries in feed order. -/
theorem extract_items_filter_order (fetch : JVal → List Entry) (url : JVal) (r : Pattern)
    (cutoff : DateTime) (vurls : List String) (newest : DateTime)
    (hok : extract_items fetch url r cutoff = .ok (vurls, newest)) :
    vurls = ((fetch url).filter (entryPass r cutoff)).map (fun e => e.link) ∧
      ∀ s, s ∈ vurls ↔ ∃ e ∈ fetch url, e.link = s ∧
        (∃ t, get_entry_datetime e = some t ∧ cutoff.key < t.key) ∧
        ∃ p, p <+: e.title ∧ p ∈ r.matches' := by
  obtain ⟨hcl, -⟩ := extract_items_ok_elim hok
  have htimed := collectLinks_ok_timed hcl
  have heq := collectLinks_eq r cutoff (fetch url) htimed
  rw [heq] at hcl
  have hv : vurls = ((fetch url).filter (entryPass r cutoff)).map (fun e => e.link) :=
    (Except.ok.inj hcl).symm
  refine ⟨hv, fun s => ?_⟩
  rw [hv]
  simp only [List.mem_map, List.mem_filter]
  constructor
  · rintro ⟨e, ⟨hmem, hpass⟩, hlink⟩
    obtain ⟨ht, hp⟩ := (entryPass_iff r cutoff e).1 hpass
    exact ⟨e, hmem, hlink, ht, hp⟩
  · rintro ⟨e, hmem, hlink, ht, hp⟩
    exact ⟨e, ⟨hmem, (entryPass_iff r cutoff e).2 ⟨ht, hp⟩⟩, hlink⟩

/-- Witness for C1 on the sample feed: the two `Breaking` entries pass, in
feed order, and the filter characterisation holds for them. -/
theorem extract_items_filter_order_witness :
    extract_items (fun _ => [entA, entB, entC]) (.jstr "http://a") patB
        ⟨2021, 4, 26, 0, 0, 0⟩ = .ok (["http://a/ep1", "http://a/ep2"], ⟨2021, 5, 3, 11, 0, 0⟩) ∧
      (["http://a/ep1", "http://a/ep2"] =
          (([entA, entB, entC]).filter (entryPass patB ⟨2021, 4, 26, 0, 0, 0⟩)).map
            (fun e => e.link) ∧
        ∀ s, s ∈ ["http://a/ep1", "http://a/ep2"] ↔ ∃ e ∈ [entA, entB, entC], e.link = s ∧
          (∃ t, get_entry_datetime e = some t ∧ (⟨2021, 4, 26, 0, 0, 0⟩ : DateTime).key < t.key) ∧
          ∃ p, p <+: e.title ∧ p ∈ patB.matches') :=
  ⟨rfl, extract_items_filter_order (fun _ => [entA, entB, entC]) (.jstr "http://a") patB
    ⟨2021, 4, 26, 0, 0, 0⟩ ["http://a/ep1", "http://a/ep2"] ⟨2021, 5, 3, 11, 0, 0⟩ rfl⟩

/-- C2: whenever `extract_items` returns, the returned `newest` is at least
the resolved timestamp of every entry of the feed and is itself some entry's
resolved timestamp, independently of the filter; on a feed with zero entries
`extract_items` returns no value but fails (the `ValueError` of `max` on an
empty sequence). -/
theorem extract_items_newest_max (fetch : JVal → List Entry) (url : JVal) (r : Pattern)
    (cutoff : DateTime) :
    (∀ vurls newest, extract_items fetch url r cutoff = .ok (vurls, newest) →
      (∀ e ∈ fetch url, ∀ t, get_entry_datetime e = some t → t.key ≤ newest.key) ∧
        ∃ e ∈ fetch url, get_entry_datetime e = some newest) ∧
      (fetch url = [] → extract_items fetch url r cutoff = .error .valueError) := by
  constructor
  · intro vurls newest hok
    obtain ⟨-, ts, hts, hmax⟩ := extract_items_ok_elim hok
    constructor
    · intro e hmem t hgd
      obtain ⟨t', ht', hgd'⟩ := entryTimes_src_mem hts e hmem
      rw [hgd] at hgd'
      cases hgd'
      exact maxTimes_ge hmax t ht'
    · exact entryTimes_mem_src hts newest (maxTimes_mem hmax)
  · exact extract_items_empty fetch url r cutoff

/-- Witness for C2: on the sample feed the returned `newest` is `entC`'s
timestamp and dominates all entries, and the empty feed fails. -/
theorem extract_items_newest_max_witness :
    extract_items (fun _ => [entA, entB, entC]) (.jstr "http://a") patB
        ⟨2021, 4, 26, 0, 0, 0⟩ = .ok (["http://a/ep1", "http://a/ep2"], ⟨2021, 5, 3, 11, 0, 0⟩) ∧
      ((∀ e ∈ [entA, entB, entC], ∀ t, get_entry_datetime e = some t →
          t.key ≤ (⟨2021, 5, 3, 11, 0, 0⟩ : DateTime).key) ∧
        ∃ e ∈ [entA, entB, entC], get_entry_datetime e = some ⟨2021, 5, 3, 11, 0, 0⟩) ∧
      extract_items (fun _ => ([] : List Entry)) (.jstr "u") patB ⟨2021, 1, 1, 0, 0, 0⟩ =
        .error .valueError :=
  ⟨rfl,
    (extract_items_newest_max (fun _ => [entA, entB, entC]) (.jstr "http://a") patB
        ⟨2021, 4, 26, 0, 0, 0⟩).1 ["http://a/ep1", "http://a/ep2"] ⟨2021, 5, 3, 11, 0, 0⟩ rfl,
    (extract_items_newest_max (fun _ => ([] : List Entry)) (.jstr "u") patB
        ⟨2021, 1, 1, 0, 0, 0⟩).2 rfl⟩

/-- C8: the timestamp resolver returns the `published` timestamp whenever one
is present, regardless of `updated`; falls back to `updated` when `published`
is absent; and fails (the escaping `AttributeError`) when both are absent. -/
theorem get_entry_datetime_policy (e : Entry) :
    (∀ t, e.published = some t → entryTimeE e = .ok t) ∧
      (∀ t, e.published = none → e.updated = some t → entryTimeE e = .ok t) ∧
      (e.published = none → e.updated = none → entryTimeE e = .error .attributeError) := by
  refine ⟨?_, ?_, ?_⟩ <;> intros <;> simp_all [entryTimeE, get_entry_datetime]

/-- Witness for C8: one concrete entry per case of the policy. -/
theorem get_entry_datetime_policy_witness :
    entryTimeE ⟨some ⟨2021, 1, 1, 0, 0, 0⟩, some ⟨2020, 2, 2, 0, 0, 0⟩, [], "x"⟩ =
        .ok ⟨2021, 1, 1, 0, 0, 0⟩ ∧
      entryTimeE ⟨none, some ⟨2020, 2, 2, 0, 0, 0⟩, [], "x"⟩ = .ok ⟨2020, 2, 2, 0, 0, 0⟩ ∧
      entryTimeE ⟨none, none, [], "x"⟩ = .error .attributeError :=
  ⟨(get_entry_datetime_policy _).1 _ rfl, (get_entry_datetime_policy _).2.1 _ rfl rfl,
    (get_entry_datetime_policy _).2.2 rfl rfl⟩

/-!
### Lemmas about the orchestrator
-/

theorem download_new_settings_error {w : World} {e : RunErr}
    (h : settingsStage w.settings w.dirExists w.now = .error e) :
    download_new w = ([], some e) := by
  unfold download_new
  rw [h]

/-!
### Claim theorems: the downloader invoker
-/

/-- C6 (amended): a downloader invocation that exits non-zero is logged with
its URL (the `dlFail` event) and absorbed, and as long as no invocation fails
to start, every remaining link is still processed; but — against the claim as
stated — a downloader that cannot be started raises an escaping error
(`check_call`'s `FileNotFoundError` is not a `CalledProcessError`, the only
exception `download` catches), which aborts the caller. -/
theorem download_failure_absorbed (runDl : String → String → DlResult) (d u : String) :
    (runDl d u = .exitNonZero → download runDl u d = ([.dlFail d u], none)) ∧
      (runDl d u = .success → download runDl u d = ([.dlOk d u], none)) ∧
      ∀ urls : List String, (∀ v ∈ urls, runDl d v ≠ .startFailure) →
        (runDls runDl d urls).2 = none ∧ (runDls runDl d urls).1.length = urls.length := by
  refine ⟨fun h => by simp [download, h], fun h => by simp [download, h], ?_⟩
  intro urls
  induction urls with
  | nil => intro; simp [runDls]
  | cons v rest ih =>
    intro h
    have hv := h v (List.mem_cons_self _ _)
    have hrec := ih fun x hx => h x (List.mem_cons_of_mem _ hx)
    cases hr : runDl d v with
    | success => simp [runDls, download, hr, hrec.1, hrec.2]
    | exitNonZero => simp [runDls, download, hr, hrec.1, hrec.2]
    | startFailure => exact absurd hr hv

/-- C6 counterexample: when the downloader cannot be started, `download` does
not return normally — the failure escapes as an uncaught error (and nothing
is logged), contradicting the claim that such failures are absorbed. -/
theorem download_start_failure_counterexample :
    download (fun _ _ => DlResult.startFailure) "http://a/ep1" "wget" =
        ([], some PyErr.osError) ∧
      (download (fun _ _ => DlResult.startFailure) "http://a/ep1" "wget").2 ≠ none :=
  ⟨rfl, by decide⟩

/-- Witness for C6 (amended) at a concrete always-failing downloader: the
non-zero exit is logged and absorbed, and a two-link list is fully
processed. -/
theorem download_failure_absorbed_witness :
    download (fun _ _ => DlResult.exitNonZero) "http://a/ep1" "wget" =
        ([.dlFail "wget" "http://a/ep1"], none) ∧
      (runDls (fun _ _ => DlResult.exitNonZero) "wget" ["u1", "u2"]).2 = none ∧
      (runDls (fun _ _ => DlResult.exitNonZero) "wget" ["u1", "u2"]).1.length = 2 :=
  ⟨(download_failure_absorbed (fun _ _ => DlResult.exitNonZero) "wget" "http://a/ep1").1 rfl,
    ((download_failure_absorbed (fun _ _ => DlResult.exitNonZero) "wget" "x").2.2
      ["u1", "u2"] (fun v _ => by decide)).1,
    ((download_failure_absorbed (fun _ _ => DlResult.exitNonZero) "wget" "x").2.2
      ["u1", "u2"] (fun v _ => by decide)).2⟩

/-!
### Claim theorems: settings validation
-/

/-- C5 (amended): a missing `directory`, a non-existent directory, a missing
`maxage`, a `maxage` whose conversion raises `TypeError` (`null`, a list, an
object), and a missing `feeds` key each abort the run with an
`InvalidInputDataException` before any feed is processed (the trace is
empty); but — against the claim as stated — a `maxage` string that is not a
valid integer literal aborts with an uncaught `ValueError` instead, because
`int()`'s `ValueError` is not among the exceptions the source catches. -/
theorem settings_validation_aborts (w : World) (kvs : List (String × JVal))
    (hs : w.settings = .jobj kvs) :
    (getKey kvs "directory" = none →
        download_new w = ([], some (.invalidInput "No directory given in settings file"))) ∧
      (∀ d, getKey kvs "directory" = some (.jstr d) → w.dirExists d = false →
        download_new w =
          ([], some (.invalidInput "Directory given in settings file does not exist"))) ∧
      ∀ d, getKey kvs "directory" = some (.jstr d) → w.dirExists d = true →
        (getKey kvs "maxage" = none →
            download_new w = ([], some (.invalidInput "No time frame given in settings file"))) ∧
          (∀ mv, getKey kvs "maxage" = some mv → pyInt mv = .error .typeError →
            download_new w =
              ([], some (.invalidInput "Invalid time frame given in settings file"))) ∧
          (∀ mv, getKey kvs "maxage" = some mv → pyInt mv = .error .valueError →
            download_new w = ([], some (.py .valueError))) ∧
          ∀ mv n, getKey kvs "maxage" = some mv → pyInt mv = .ok n →
            getKey kvs "feeds" = none →
              download_new w = ([], some (.invalidInput "No feeds given in settings file")) := by
  refine ⟨?_, ?_, ?_⟩
  · intro h
    exact download_new_settings_error
      (by simp [settingsStage, dirStage, hs, h, Bind.bind, Except.bind])
  · intro d hd hex
    exact download_new_settings_error
      (by simp [settingsStage, dirStage, hs, hd, hex, Bind.bind, Except.bind])
  · intro d hd hex
    refine ⟨?_, ?_, ?_, ?_⟩
    · intro h
      exact download_new_settings_error
        (by simp [settingsStage, dirStage, maxageStage, hs, hd, hex, h, Bind.bind, Except.bind])
    · intro mv hmv hint
      exact download_new_settings_error
        (by simp [settingsStage, dirStage, maxageStage, hs, hd, hex, hmv, hint,
          Bind.bind, Except.bind])
    · intro mv hmv hint
      exact download_new_settings_error
        (by simp [settingsStage, dirStage, maxageStage, hs, hd, hex, hmv, hint,
          Bind.bind, Except.bind])
    · intro mv n hmv hint hf
      exact download_new_settings_error
        (by simp [settingsStage, dirStage, maxageStage, feedsStage, hs, hd, hex, hmv, hint, hf,
          Bind.bind, Except.bind])

/-- C5 counterexample: with `maxage` set to the non-numeric string `"abc"`
(and everything else valid), `download_new` aborts with the uncaught
`ValueError` of `int("abc")`, not with an `InvalidInputDataException` as the
claim states. -/
theorem settings_maxage_nonnumeric_counterexample :
    (download_new worldBadMaxage).2 = some (.py .valueError) ∧
      ∀ m, RunErr.py .valueError ≠ .invalidInput m :=
  ⟨rfl, fun _ h => nomatch h⟩

/-- Witness for C5 (amended): a missing directory, a `null` `maxage` and a
missing `feeds` key each produce the corresponding configuration error with
an empty trace. -/
theorem settings_validation_aborts_witness :
    download_new { sampleWorld with settings := .jobj [] } =
        ([], some (.invalidInput "No directory given in settings file")) ∧
      download_new { sampleWorld with
          settings := .jobj [("directory", .jstr "/data"), ("maxage", .jnull)] } =
        ([], some (.invalidInput "Invalid time frame given in settings file")) ∧
      download_new { sampleWorld with
          settings := .jobj [("directory", .jstr "/data"), ("maxage", .jnum 7)] } =
        ([], some (.invalidInput "No feeds given in settings file")) :=
  ⟨(settings_validation_aborts _ [] rfl).1 rfl,
    (((settings_validation_aborts _
        [("directory", .jstr "/data"), ("maxage", .jnull)] rfl).2.2
        "/data" rfl rfl).2.1 .jnull rfl rfl),
    (((settings_validation_aborts _
        [("directory", .jstr "/data"), ("maxage", .jnum 7)] rfl).2.2
        "/data" rfl rfl).2.2.2 (.jnum 7) 7 rfl rfl rfl)⟩

theorem processFeed_wm_irrel (w : World) (x : Option (Option JVal)) (start : DateTime)
    (st fv : JVal) :
    processFeed { w with wmRead := x } start st fv = processFeed w start st fv :=
  rfl

theorem runFeeds_wm_irrel (w : World) (x : Option (Option JVal)) (start : DateTime) :
    ∀ (fvs : List JVal) (st : JVal),
      runFeeds { w with wmRead := x } start st fvs = runFeeds w start st fvs := by
  intro fvs
  induction fvs with
  | nil => intro st; rfl
  | cons fv rest ih =>
    intro st
    simp only [runFeeds, processFeed_wm_irrel]
    rcases hr : processFeed w start st fv with ⟨evs, r⟩
    cases r with
    | error e => simp
    | ok st' => simp [ih st']

/-!
### Claim theorems: watermark store loading
-/

/-- C9: a run whose watermark file is absent behaves exactly like a run whose
watermark file parses to the empty store; a run whose watermark file is
present but fails to parse as JSON behaves exactly like the absent-file run
except for prepending the logged warning to the trace — in particular it does
not crash and it aborts exactly when the absent-file run aborts. -/
theorem watermark_store_tolerance (w : World) :
    download_new { w with wmRead := none } =
        download_new { w with wmRead := some (some (.jobj [])) } ∧
      (∀ start feedsVal, settingsStage w.settings w.dirExists w.now = .ok (start, feedsVal) →
        (download_new { w with wmRead := some none }).1 =
            .warnBadWatermark :: (download_new { w with wmRead := none }).1 ∧
          (download_new { w with wmRead := some none }).2 =
            (download_new { w with wmRead := none }).2) ∧
      ∀ e, settingsStage w.settings w.dirExists w.now = .error e →
        download_new { w with wmRead := some none } = ([], some e) ∧
          download_new { w with wmRead := none } = ([], some e) := by
  refine ⟨?_, ?_, ?_⟩
  · cases hst : settingsStage w.settings w.dirExists w.now with
    | error e =>
      rw [download_new_settings_error (w := { w with wmRead := none }) hst,
        download_new_settings_error (w := { w with wmRead := some (some (.jobj [])) }) hst]
    | ok p =>
      rcases p with ⟨start, feedsVal⟩
      simp only [download_new, hst, loadStore]
      cases hit : iterElems feedsVal with
      | error e => rfl
      | ok fvs => simp [runFeeds_wm_irrel]
  · intro start feedsVal hst
    simp only [download_new, hst, loadStore]
    cases hit : iterElems feedsVal with
    | error e => exact ⟨rfl, rfl⟩
    | ok fvs =>
      simp only [runFeeds_wm_irrel]
      rcases hr : runFeeds w start (.jobj []) fvs with ⟨evs, r⟩
      exact ⟨by simp, by simp⟩
  · intro e hst
    exact ⟨download_new_settings_error hst, download_new_settings_error hst⟩

/-- Witness for C9 at the sample world (where the settings validate): the
corrupt-file run is the absent-file run plus the leading warning, with the
same (absent) error outcome. -/
theorem watermark_store_tolerance_witness :
    (download_new { sampleWorld with wmRead := some none }).1 =
        .warnBadWatermark :: (download_new { sampleWorld with wmRead := none }).1 ∧
      (download_new { sampleWorld with wmRead := some none }).2 =
        (download_new { sampleWorld with wmRead := none }).2 :=
  (watermark_store_tolerance sampleWorld).2.1 ⟨2021, 4, 26, 0, 0, 0⟩ (.jarr [feedA]) rfl

/-!
### Claim theorems: the per-feed cutoff and the unsupported downloader
-/

/-- C10: when the watermark file parses as JSON but maps a configured feed's
URL to a string that `strptime` cannot read with format
`%Y-%m-%dT%H:%M:%S`, the run aborts with the uncaught `ValueError` of the
timestamp parse — not tolerated like a corrupt watermark file, and not an
`InvalidInputDataException` — before any network access. -/
theorem malformed_watermark_aborts (w : World) (start : DateTime) (feedsVal fv : JVal)
    (fkvs kvs : List (String × JVal)) (u rs d s : String)
    (hst : settingsStage w.settings w.dirExists w.now = .ok (start, feedsVal))
    (hit : iterElems feedsVal = .ok [fv])
    (hwm : w.wmRead = some (some (.jobj kvs)))
    (hfv : fv = .jobj fkvs)
    (hurl : getKey fkvs "url" = some (.jstr u))
    (hre : getKey fkvs "regex" = some (.jstr rs))
    (hdl : getKey fkvs "downloader" = some (.jstr d))
    (hsup : d ∈ SUPPORTED_DOWNLOADERS)
    (hbad : getKey kvs u = some (.jstr s))
    (hparse : isoParse s = none) :
    download_new w = ([], some (.py .valueError)) := by
  subst hfv
  simp [download_new, hst, hwm, loadStore, hit, runFeeds, processFeed, feedFields,
    checkDownloader, hurl, hre, hdl, hsup, cutoffFor, hbad, hparse]

/-- Witness for C10: in the sample world whose watermark store maps the feed
URL to `"garbage"`, the run aborts with the uncaught `ValueError` and an
empty trace. -/
theorem malformed_watermark_aborts_witness :
    download_new worldBadWatermark = ([], some (.py .valueError)) :=
  malformed_watermark_aborts worldBadWatermark ⟨2021, 4, 26, 0, 0, 0⟩ (.jarr [feedA]) feedA
    [("url", .jstr "http://a"), ("regex", .jstr "B"), ("downloader", .jstr "wget")]
    [("http://a", .jstr "garbage")] "http://a" "B" "wget" "garbage"
    rfl rfl rfl rfl rfl rfl rfl (List.mem_cons_of_mem _ (List.mem_cons_self _ _)) rfl rfl

/-- C7 (amended): a feed whose `downloader` is not in the allow-list aborts
the run with the `Unsupported downloader` configuration error as soon as the
loop reaches that feed, before any network access or download attempt *for
that feed* (its trace contribution is empty); feeds earlier in the list have
already been fully processed by then, and their events — including their
network fetches, downloads and persisted watermark — are kept. -/
theorem unsupported_downloader_aborts :
    (∀ (w : World) (start : DateTime) (st : JVal) (fkvs : List (String × JVal))
        (urlv : JVal) (rs d : String),
      getKey fkvs "url" = some urlv → getKey fkvs "regex" = some (.jstr rs) →
      getKey fkvs "downloader" = some (.jstr d) → d ∉ SUPPORTED_DOWNLOADERS →
      processFeed w start st (.jobj fkvs) =
        ([], .error (.invalidInput ("Unsupported downloader: " ++ d)))) ∧
      ∀ (w : World) (start : DateTime) (st : JVal) (fa fb : JVal) (evsA : List Ev)
          (stA : JVal) (e : RunErr),
        processFeed w start st fa = (evsA, .ok stA) →
        processFeed w start stA fb = ([], .error e) →
        runFeeds w start st [fa, fb] = (evsA, some e) := by
  constructor
  · intro w start st fkvs urlv rs d hurl hre hdl hsup
    simp [processFeed, feedFields, checkDownloader, hurl, hre, hdl, hsup]
  · intro w start st fa fb evsA stA e h1 h2
    simp [runFeeds, h1, h2]

/-- C7 counterexample: in the sample world whose second feed names the
unsupported downloader `curl`, the run does abort with the configuration
error, but only after the first feed was fetched over the network, its two
matching links downloaded, and its watermark persisted — contradicting the
claim that the abort precedes any network access or download attempt for any
feed. -/
theorem unsupported_downloader_counterexample :
    download_new worldCurl =
        ([.cutoff (.jstr "http://a") ⟨2021, 4, 26, 0, 0, 0⟩, .fetch (.jstr "http://a"),
            .dlOk "wget" "http://a/ep1", .dlOk "wget" "http://a/ep2",
            .persist (.jobj [("http://a", .jstr "2021-05-03T11:00:00")])],
          some (.invalidInput "Unsupported downloader: curl")) ∧
      Ev.fetch (.jstr "http://a") ∈ (download_new worldCurl).1 ∧
      Ev.dlOk "wget" "http://a/ep1" ∈ (download_new worldCurl).1 := by
  refine ⟨rfl, ?_, ?_⟩
  · rw [show (download_new worldCurl).1 =
        [.cutoff (.jstr "http://a") ⟨2021, 4, 26, 0, 0, 0⟩, .fetch (.jstr "http://a"),
          .dlOk "wget" "http://a/ep1", .dlOk "wget" "http://a/ep2",
          .persist (.jobj [("http://a", .jstr "2021-05-03T11:00:00")])] from rfl]
    exact List.mem_cons_of_mem _ (List.mem_cons_self _ _)
  · rw [show (download_new worldCurl).1 =
        [.cutoff (.jstr "http://a") ⟨2021, 4, 26, 0, 0, 0⟩, .fetch (.jstr "http://a"),
          .dlOk "wget" "http://a/ep1", .dlOk "wget" "http://a/ep2",
          .persist (.jobj [("http://a", .jstr "2021-05-03T11:00:00")])] from rfl]
    exact List.mem_cons_of_mem _ (List.mem_cons_of_mem _ (List.mem_cons_self _ _))

/-- Witness for C7 (amended): processing the `curl` feed directly produces
the configuration error with no events, and a well-formed feed followed by a
failing feed keeps the first feed's events. -/
theorem unsupported_downloader_aborts_witness :
    processFeed sampleWorld ⟨2021, 4, 26, 0, 0, 0⟩ (.jobj []) feedCurl =
        ([], .error (.invalidInput "Unsupported downloader: curl")) ∧
      runFeeds sampleWorld ⟨2021, 4, 26, 0, 0, 0⟩ (.jobj []) [feedA, feedCurl] =
        ([.cutoff (.jstr "http://a") ⟨2021, 4, 26, 0, 0, 0⟩, .fetch (.jstr "http://a"),
            .dlOk "wget" "http://a/ep1", .dlOk "wget" "http://a/ep2",
            .persist (.jobj [("http://a", .jstr "2021-05-03T11:00:00")])],
          some (.invalidInput "Unsupported downloader: curl")) :=
  ⟨unsupported_downloader_aborts.1 sampleWorld ⟨2021, 4, 26, 0, 0, 0⟩ (.jobj [])
      [("url", .jstr "http://b"), ("regex", .jstr "B"), ("downloader", .jstr "curl")]
      (.jstr "http://b") "B" "curl" rfl rfl rfl (by decide),
    unsupported_downloader_aborts.2 sampleWorld ⟨2021, 4, 26, 0, 0, 0⟩ (.jobj [])
      feedA feedCurl _ (.jobj [("http://a", .jstr "2021-05-03T11:00:00")])
      (.invalidInput "Unsupported downloader: curl") rfl rfl⟩

theorem prevDate_time (d : DateTime) :
    (prevDate d).hour = d.hour ∧ (prevDate d).minute = d.minute ∧
      (prevDate d).second = d.second := by
  unfold prevDate
  split_ifs <;> exact ⟨rfl, rfl, rfl⟩

theorem nextDate_time (d : DateTime) :
    (nextDate d).hour = d.hour ∧ (nextDate d).minute = d.minute ∧
      (nextDate d).second = d.second := by
  unfold nextDate
  split_ifs <;> exact ⟨rfl, rfl, rfl⟩

theorem stepDays_time (f : DateTime → DateTime)
    (hf : ∀ d, (f d).hour = d.hour ∧ (f d).minute = d.minute ∧ (f d).second = d.second) :
    ∀ (n : Nat) (d : DateTime), (stepDays f n d).hour = d.hour ∧
      (stepDays f n d).minute = d.minute ∧ (stepDays f n d).second = d.second := by
  intro n
  induction n with
  | zero => intro d; exact ⟨rfl, rfl, rfl⟩
  | succ m ih =>
    intro d
    have h1 := ih (f d)
    have h2 := hf d
    simp only [stepDays]
    exact ⟨h1.1.trans h2.1, h1.2.1.trans h2.2.1, h1.2.2.trans h2.2.2⟩

theorem globalStart_midnight (now : DateTime) (n : Int) :
    (globalStart now n).hour = 0 ∧ (globalStart now n).minute = 0 ∧
      (globalStart now n).second = 0 := by
  unfold globalStart
  split_ifs
  · exact stepDays_time prevDate prevDate_time n.toNat (midnightOf now)
  · exact stepDays_time nextDate nextDate_time (-n).toNat (midnightOf now)

theorem maxageStage_ok {kvs : List (String × JVal)} {now start : DateTime}
    (h : maxageStage kvs now = .ok start) : ∃ n : Int, start = globalStart now n := by
  unfold maxageStage at h
  cases h1 : getKey kvs "maxage" with
  | none => rw [h1] at h; exact absurd h (by simp)
  | some mv =>
    simp only [h1] at h
    cases h2 : pyInt mv with
    | ok n => simp only [h2] at h; exact ⟨n, (Except.ok.inj h).symm⟩
    | error e => simp only [h2] at h; cases e <;> exact absurd h (by simp)

theorem settingsStage_ok_elim {settings : JVal} {dirExists : String → Bool}
    {now start : DateTime} {feedsVal : JVal}
    (h : settingsStage settings dirExists now = .ok (start, feedsVal)) :
    ∃ kvs, settings = .jobj kvs ∧ maxageStage kvs now = .ok start := by
  cases settings with
  | jobj kvs =>
    refine ⟨kvs, rfl, ?_⟩
    simp only [settingsStage, Bind.bind, Except.bind] at h
    cases h1 : dirStage kvs dirExists with
    | error e => rw [h1] at h; exact absurd h (by simp)
    | ok unitv =>
      rw [h1] at h
      cases h2 : maxageStage kvs now with
      | error e => rw [h2] at h; exact absurd h (by simp)
      | ok start' =>
        rw [h2] at h
        cases h3 : feedsStage kvs with
        | error e => rw [h3] at h; exact absurd h (by simp)
        | ok fv =>
          rw [h3] at h
          simp only [pure, Except.pure, Except.ok.injEq, Prod.mk.injEq] at h
          rw [h.1]
  | jnull => exact absurd h (by simp [settingsStage])
  | jbool b => exact absurd h (by simp [settingsStage])
  | jnum n => exact absurd h (by simp [settingsStage])
  | jstr s => exact absurd h (by simp [settingsStage])
  | jarr xs => exact absurd h (by simp [settingsStage])

theorem runDls_no_cutoff (rd : String → String → DlResult) (d : String) :
    ∀ (urls : List String) (u : JVal) (t : DateTime),
      Ev.cutoff u t ∉ (runDls rd d urls).1 := by
  intro urls
  induction urls with
  | nil => intro u t; simp [runDls]
  | cons v rest ih =>
    intro u t
    cases hr : rd d v with
    | success => simp [runDls, download, hr, ih u t]
    | exitNonZero => simp [runDls, download, hr, ih u t]
    | startFailure => simp [runDls, download, hr]

theorem processFeed_shape (w : World) (start : DateTime) (st fv : JVal) :
    (∃ e, processFeed w start st fv = ([], .error e)) ∨
      ∃ urlv nt rest res, cutoffFor start st urlv = .ok nt ∧
        processFeed w start st fv = (Ev.cutoff urlv nt :: Ev.fetch urlv :: rest, res) ∧
        (∀ u t, Ev.cutoff u t ∉ rest) ∧
        ∀ m, res ≠ .error (.invalidInput m) := by
  cases hf : feedFields fv w.compile with
  | error e => exact Or.inl ⟨e, by simp [processFeed, hf]⟩
  | ok trip =>
    obtain ⟨urlv, pat, dv⟩ := trip
    cases hc : checkDownloader dv with
    | error e => exact Or.inl ⟨e, by simp [processFeed, hf, hc]⟩
    | ok d =>
      cases hcut : cutoffFor start st urlv with
      | error e => exact Or.inl ⟨.py e, by simp [processFeed, hf, hc, hcut]⟩
      | ok nt =>
        cases hex : extract_items w.fetch urlv pat nt with
        | error e =>
          refine Or.inr ⟨urlv, nt, [], .error (.py e), hcut, ?_, ?_, ?_⟩
          · simp [processFeed, hf, hc, hcut, hex]
          · intro u t; simp
          · intro m hcon
            rw [Except.error.injEq] at hcon
            exact absurd hcon (by simp)
        | ok pair =>
          obtain ⟨vurls, newest⟩ := pair
          rcases hdl : runDls w.runDl d vurls with ⟨dlEvs, dlErr⟩
          have hnc : ∀ u t, Ev.cutoff u t ∉ dlEvs := by
            intro u t
            have hx := runDls_no_cutoff w.runDl d vurls u t
            rw [hdl] at hx
            exact hx
          cases dlErr with
          | some e =>
            refine Or.inr ⟨urlv, nt, dlEvs, .error (.py e), hcut, ?_, hnc, ?_⟩
            · simp [processFeed, hf, hc, hcut, hex, hdl]
            · intro m hcon
              rw [Except.error.injEq] at hcon
              exact absurd hcon (by simp)
          | none =>
            cases hss : storeSet st urlv (.jstr newest.isoformat) with
            | error e =>
              refine Or.inr ⟨urlv, nt, dlEvs, .error (.py e), hcut, ?_, hnc, ?_⟩
              · simp [processFeed, hf, hc, hcut, hex, hdl, hss]
              · intro m hcon
                rw [Except.error.injEq] at hcon
                exact absurd hcon (by simp)
            | ok st' =>
              refine Or.inr ⟨urlv, nt, dlEvs ++ [.persist st'], .ok st', hcut, ?_, ?_, ?_⟩
              · simp [processFeed, hf, hc, hcut, hex, hdl, hss]
              · intro u t
                simp [List.mem_append, hnc u t]
              · intro m hcon
                exact absurd hcon (by simp)

theorem processFeed_cutoff_ev {w : World} {start : DateTime} {st fv : JVal} {evs : List Ev}
    {r : Except RunErr JVal} (h : processFeed w start st fv = (evs, r)) :
    ∀ u t, Ev.cutoff u t ∈ evs → cutoffFor start st u = .ok t := by
  intro u t hm
  rcases processFeed_shape w start st fv with ⟨e, hpe⟩ | ⟨urlv, nt, rest, res, hcut, hpe, hnc, -⟩
  · rw [hpe] at h
    injection h with h1 h2
    rw [← h1] at hm
    simp at hm
  · rw [hpe] at h
    injection h with h1 h2
    rw [← h1] at hm
    rcases List.mem_cons.1 hm with heq | hm2
    · injection heq with hu ht
      rw [hu, ht]
      exact hcut
    · rcases List.mem_cons.1 hm2 with heq | hm3
      · exact absurd heq (by simp)
      · exact absurd hm3 (hnc u t)

theorem runFeeds_cutoff_ev {w : World} {start : DateTime} :
    ∀ {fvs : List JVal} {st : JVal} {evs : List Ev} {r : Option RunErr},
      runFeeds w start st fvs = (evs, r) →
      ∀ u t, Ev.cutoff u t ∈ evs → ∃ st', cutoffFor start st' u = .ok t := by
  intro fvs
  induction fvs with
  | nil =>
    intro st evs r h u t hm
    simp only [runFeeds] at h
    injection h with h1 h2
    rw [← h1] at hm
    simp at hm
  | cons fv rest ih =>
    intro st evs r h u t hm
    simp only [runFeeds] at h
    rcases hp : processFeed w start st fv with ⟨evs1, r1⟩
    rw [hp] at h
    cases r1 with
    | error e =>
      simp only at h
      injection h with h1 h2
      rw [← h1] at hm
      exact ⟨st, processFeed_cutoff_ev hp u t hm⟩
    | ok st2 =>
      simp only at h
      rcases hr : runFeeds w start st2 rest with ⟨evs2, r2⟩
      rw [hr] at h
      simp only at h
      injection h with h1 h2
      rw [← h1] at hm
      rcases List.mem_append.1 hm with hm1 | hm2
      · exact ⟨st, processFeed_cutoff_ev hp u t hm1⟩
      · exact ih hr u t hm2

/-!
### Claim theorems: the per-feed cutoff invariant
-/

/-- C3: the cutoff recorded for a feed always satisfies
`cutoffFor start store url`, which equals `max(global_start_time, watermark)`
when the store holds a parseable watermark for the URL and `global_start_time`
when it holds none; the `start` threaded unchanged to every feed of a run is
`globalStart now maxage` for the run's single clock reading, and
`globalStart` is a midnight (the time-of-day fields are zero). -/
theorem cutoff_invariant :
    (∀ (now : DateTime) (n : Int), (globalStart now n).hour = 0 ∧
        (globalStart now n).minute = 0 ∧ (globalStart now n).second = 0) ∧
      (∀ (start : DateTime) (kvs : List (String × JVal)) (u : String),
        (getKey kvs u = none → cutoffFor start (.jobj kvs) (.jstr u) = .ok start) ∧
          ∀ s t, getKey kvs u = some (.jstr s) → isoParse s = some t →
            cutoffFor start (.jobj kvs) (.jstr u) = .ok (dtMax start t)) ∧
      (∀ (w : World) (start : DateTime) (feedsVal : JVal),
        settingsStage w.settings w.dirExists w.now = .ok (start, feedsVal) →
          ∃ n : Int, start = globalStart w.now n) ∧
      (∀ (w : World) (start : DateTime) (st fv : JVal) (evs : List Ev)
          (r : Except RunErr JVal),
        processFeed w start st fv = (evs, r) →
          ∀ u t, Ev.cutoff u t ∈ evs → cutoffFor start st u = .ok t) ∧
      ∀ (w : World) (start : DateTime) (st : JVal) (fvs : List JVal) (evs : List Ev)
          (r : Option RunErr),
        runFeeds w start st fvs = (evs, r) →
          ∀ u t, Ev.cutoff u t ∈ evs → ∃ st', cutoffFor start st' u = .ok t := by
  refine ⟨globalStart_midnight, ?_, ?_, ?_, ?_⟩
  · intro start kvs u
    constructor
    · intro h
      simp [cutoffFor, h]
    · intro s t hs hp
      simp [cutoffFor, hs, hp]
  · intro w start feedsVal h
    obtain ⟨kvs, -, hmax⟩ := settingsStage_ok_elim h
    exact maxageStage_ok hmax
  · intro w start st fv evs r h
    exact processFeed_cutoff_ev h
  · intro w start st fvs evs r h
    exact runFeeds_cutoff_ev h

/-- Witness for C3 at the sample run: the window start for `maxage = 7` is a
midnight, an absent watermark yields the window start, a present parseable
watermark yields the maximum, the settings stage produces a `globalStart`
value, and the cutoff event of the sample feed satisfies `cutoffFor`. -/
theorem cutoff_invariant_witness :
    ((globalStart ⟨2021, 5, 3, 12, 30, 45⟩ 7).hour = 0 ∧
        (globalStart ⟨2021, 5, 3, 12, 30, 45⟩ 7).minute = 0 ∧
        (globalStart ⟨2021, 5, 3, 12, 30, 45⟩ 7).second = 0) ∧
      cutoffFor ⟨2021, 4, 26, 0, 0, 0⟩ (.jobj []) (.jstr "http://a") =
        .ok ⟨2021, 4, 26, 0, 0, 0⟩ ∧
      cutoffFor ⟨2021, 4, 26, 0, 0, 0⟩
          (.jobj [("http://a", .jstr "2021-05-02T23:00:00")]) (.jstr "http://a") =
        .ok (dtMax ⟨2021, 4, 26, 0, 0, 0⟩ ⟨2021, 5, 2, 23, 0, 0⟩) ∧
      (∃ n : Int, (⟨2021, 4, 26, 0, 0, 0⟩ : DateTime) = globalStart sampleWorld.now n) ∧
      ∃ st', cutoffFor ⟨2021, 4, 26, 0, 0, 0⟩ st' (.jstr "http://a") =
        .ok ⟨2021, 4, 26, 0, 0, 0⟩ :=
  ⟨cutoff_invariant.1 ⟨2021, 5, 3, 12, 30, 45⟩ 7,
    (cutoff_invariant.2.1 ⟨2021, 4, 26, 0, 0, 0⟩ [] "http://a").1 rfl,
    (cutoff_invariant.2.1 ⟨2021, 4, 26, 0, 0, 0⟩
        [("http://a", .jstr "2021-05-02T23:00:00")] "http://a").2
      "2021-05-02T23:00:00" ⟨2021, 5, 2, 23, 0, 0⟩ rfl rfl,
    cutoff_invariant.2.2.1 sampleWorld ⟨2021, 4, 26, 0, 0, 0⟩ (.jarr [feedA]) rfl,
    cutoff_invariant.2.2.2.2 sampleWorld ⟨2021, 4, 26, 0, 0, 0⟩ (.jobj []) [feedA]
      [.cutoff (.jstr "http://a") ⟨2021, 4, 26, 0, 0, 0⟩, .fetch (.jstr "http://a"),
        .dlOk "wget" "http://a/ep1", .dlOk "wget" "http://a/ep2",
        .persist (.jobj [("http://a", .jstr "2021-05-03T11:00:00")])]
      none rfl (.jstr "http://a") ⟨2021, 4, 26, 0, 0, 0⟩ (List.mem_cons_self _ _)⟩

theorem getKey_setKey_self (kvs : List (String × JVal)) (k : String) (v : JVal) :
    getKey (setKey kvs k v) k = some v := by
  induction kvs with
  | nil => simp [setKey, getKey]
  | cons p rest ih =>
    obtain ⟨k', v'⟩ := p
    by_cases hk : k' = k
    · simp [setKey, getKey, hk]
    · simp [setKey, getKey, hk, ih]

theorem getKey_setKey_ne (kvs : List (String × JVal)) (k : String) (v : JVal) (k2 : String)
    (h : k2 ≠ k) : getKey (setKey kvs k v) k2 = getKey kvs k2 := by
  have h' : k ≠ k2 := fun hx => h hx.symm
  induction kvs with
  | nil => simp [setKey, getKey, h']
  | cons p rest ih =>
    obtain ⟨k', v'⟩ := p
    by_cases hk : k' = k
    · subst hk
      simp [setKey, getKey, h']
    · simp [setKey, getKey, hk, ih]

theorem storeSet_ok_elim {st url v st2 : JVal} (h : storeSet st url v = .ok st2) :
    ∃ kvs u, st = .jobj kvs ∧ url = .jstr u ∧ st2 = .jobj (setKey kvs u v) := by
  cases st <;> cases url <;>
    first
      | exact ⟨_, _, rfl, rfl, (Except.ok.inj h).symm⟩
      | exact absurd h (by simp [storeSet])

theorem feedFields_ok_elim {fv : JVal} {compile : String → Pattern} {urlv : JVal}
    {pat : Pattern} {dv : JVal} (h : feedFields fv compile = .ok (urlv, pat, dv)) :
    ∃ fkvs rs, fv = .jobj fkvs ∧ getKey fkvs "url" = some urlv ∧
      getKey fkvs "regex" = some (.jstr rs) ∧ pat = compile rs ∧
      getKey fkvs "downloader" = some dv := by
  cases fv with
  | jobj fkvs =>
    simp only [feedFields] at h
    cases h1 : getKey fkvs "url" with
    | none => rw [h1] at h; exact absurd h (by simp)
    | some u0 =>
      simp only [h1] at h
      cases h2 : getKey fkvs "regex" with
      | none => rw [h2] at h; exact absurd h (by simp)
      | some r0 =>
        simp only [h2] at h
        cases r0 with
        | jstr rs =>
          cases h3 : getKey fkvs "downloader" with
          | none => simp only [h3] at h; exact absurd h (by simp)
          | some d0 =>
            simp only [h3] at h
            have h' := Except.ok.inj h
            rw [Prod.mk.injEq, Prod.mk.injEq] at h'
            obtain ⟨h4, h5, h6⟩ := h'
            exact ⟨fkvs, rs, rfl, h4 ▸ h1, h2, h5.symm, h6 ▸ h3⟩
        | jnull => simp at h
        | jbool b => simp at h
        | jnum n => simp at h
        | jarr xs => simp at h
        | jobj kvs2 => simp at h
  | jnull => simp [feedFields] at h
  | jbool b => simp [feedFields] at h
  | jnum n => simp [feedFields] at h
  | jstr s => simp [feedFields] at h
  | jarr xs => simp [feedFields] at h

theorem processFeed_ok_elim {w : World} {start : DateTime} {st fv : JVal} {evs : List Ev}
    {st' : JVal} (h : processFeed w start st fv = (evs, .ok st')) :
    ∃ kvs fkvs u newest pre, st = .jobj kvs ∧ fv = .jobj fkvs ∧
      getKey fkvs "url" = some (.jstr u) ∧
      st' = .jobj (setKey kvs u (.jstr (DateTime.isoformat newest))) ∧
      evs = pre ++ [Ev.persist st'] := by
  unfold processFeed at h
  cases hf : feedFields fv w.compile with
  | error e => simp only [hf] at h; exact absurd h (by simp)
  | ok trip =>
    obtain ⟨urlv, pat, dv⟩ := trip
    simp only [hf] at h
    cases hc : checkDownloader dv with
    | error e => simp only [hc] at h; exact absurd h (by simp)
    | ok d =>
      simp only [hc] at h
      cases hcut : cutoffFor start st urlv with
      | error e => simp only [hcut] at h; exact absurd h (by simp)
      | ok nt =>
        simp only [hcut] at h
        cases hex : extract_items w.fetch urlv pat nt with
        | error e => simp only [hex] at h; exact absurd h (by simp)
        | ok pair =>
          obtain ⟨vurls, newest⟩ := pair
          simp only [hex] at h
          rcases hdl : runDls w.runDl d vurls with ⟨dlEvs, dlErr⟩
          cases dlErr with
          | some e => simp only [hdl] at h; exact absurd h (by simp)
          | none =>
            simp only [hdl] at h
            cases hss : storeSet st urlv (.jstr newest.isoformat) with
            | error e => simp only [hss] at h; exact absurd h (by simp)
            | ok st2 =>
              simp only [hss] at h
              injection h with h1 h2
              have hst : st2 = st' := Except.ok.inj h2
              subst hst
              obtain ⟨fkvs, rs, hfv, hurl, -, -, -⟩ := feedFields_ok_elim hf
              obtain ⟨kvs, u, hstj, hurlj, hst2⟩ := storeSet_ok_elim hss
              refine ⟨kvs, fkvs, u, newest, [Ev.cutoff urlv nt, Ev.fetch urlv] ++ dlEvs,
                hstj, hfv, hurlj ▸ hurl, hst2, ?_⟩
              rw [← h1]

theorem processFeed_invalid_events {w : World} {start : DateTime} {st fv : JVal}
    {evs : List Ev} {m : String}
    (h : processFeed w start st fv = (evs, .error (.invalidInput m))) : evs = [] := by
  rcases processFeed_shape w start st fv with ⟨e, hpe⟩ | ⟨urlv, nt, rest, res, -, hpe, -, hres⟩
  · rw [hpe] at h
    injection h with h1 h2
    exact h1.symm
  · rw [hpe] at h
    injection h with h1 h2
    exact absurd h2 (hres m)

/-!
### Claim theorems: checkpoint durability
-/

/-- C4: a feed whose processing completes always ends its event contribution
with the persist of the updated store — the store in which its own URL now
maps to the isoformat of the feed's newest timestamp and every other key is
unchanged — so the write happens inside the feed's iteration, not at the end
of the run; consequently, when feed A completes and feed B then raises a
configuration error, the run's trace is exactly feed A's (feed B contributes
nothing), its last persisted store carries A's new watermark, and no key
other than A's URL was touched. -/
theorem checkpoint_durability :
    (∀ (w : World) (start : DateTime) (st fv : JVal) (evs : List Ev) (st' : JVal),
      processFeed w start st fv = (evs, .ok st') →
        ∃ kvs fkvs u newest pre, st = .jobj kvs ∧ fv = .jobj fkvs ∧
          getKey fkvs "url" = some (.jstr u) ∧
          st' = .jobj (setKey kvs u (.jstr (DateTime.isoformat newest))) ∧
          evs = pre ++ [Ev.persist st'] ∧
          getKey (setKey kvs u (.jstr (DateTime.isoformat newest))) u =
            some (.jstr (DateTime.isoformat newest)) ∧
          ∀ k, k ≠ u → getKey (setKey kvs u (.jstr (DateTime.isoformat newest))) k =
            getKey kvs k) ∧
      ∀ (w : World) (start : DateTime) (st0 fa fb : JVal) (evsA evsB : List Ev)
          (stA : JVal) (m : String),
        processFeed w start st0 fa = (evsA, .ok stA) →
        processFeed w start stA fb = (evsB, .error (.invalidInput m)) →
        runFeeds w start st0 [fa, fb] = (evsA, some (.invalidInput m)) ∧
          Ev.persist stA ∈ evsA := by
  constructor
  · intro w start st fv evs st' h
    obtain ⟨kvs, fkvs, u, newest, pre, hstj, hfv, hurl, hst', hevs⟩ := processFeed_ok_elim h
    exact ⟨kvs, fkvs, u, newest, pre, hstj, hfv, hurl, hst', hevs,
      getKey_setKey_self kvs u _, fun k hk => getKey_setKey_ne kvs u _ k hk⟩
  · intro w start st0 fa fb evsA evsB stA m hA hB
    have hBe := processFeed_invalid_events hB
    subst hBe
    constructor
    · simp [runFeeds, hA, hB]
    · obtain ⟨kvs, fkvs, u, newest, pre, -, -, -, -, hevs⟩ := processFeed_ok_elim hA
      rw [hevs]
      exact List.mem_append_right _ (List.mem_cons_self _ _)

/-- Witness for C4: the sample feed followed by a feed with a missing `regex`
key — the run's trace is the first feed's five events ending in its persist,
and the error is the second feed's configuration error. -/
theorem checkpoint_durability_witness :
    runFeeds sampleWorld ⟨2021, 4, 26, 0, 0, 0⟩ (.jobj []) [feedA, feedBad] =
        ([.cutoff (.jstr "http://a") ⟨2021, 4, 26, 0, 0, 0⟩, .fetch (.jstr "http://a"),
            .dlOk "wget" "http://a/ep1", .dlOk "wget" "http://a/ep2",
            .persist (.jobj [("http://a", .jstr "2021-05-03T11:00:00")])],
          some (.invalidInput "Invalid feeds list")) ∧
      Ev.persist (.jobj [("http://a", .jstr "2021-05-03T11:00:00")]) ∈
        [Ev.cutoff (.jstr "http://a") ⟨2021, 4, 26, 0, 0, 0⟩, Ev.fetch (.jstr "http://a"),
          Ev.dlOk "wget" "http://a/ep1", Ev.dlOk "wget" "http://a/ep2",
          Ev.persist (.jobj [("http://a", .jstr "2021-05-03T11:00:00")])] :=
  checkpoint_durability.2 sampleWorld ⟨2021, 4, 26, 0, 0, 0⟩ (.jobj []) feedA feedBad
    [.cutoff (.jstr "http://a") ⟨2021, 4, 26, 0, 0, 0⟩, .fetch (.jstr "http://a"),
      .dlOk "wget" "http://a/ep1", .dlOk "wget" "http://a/ep2",
      .persist (.jobj [("http://a", .jstr "2021-05-03T11:00:00")])]
    [] (.jobj [("http://a", .jstr "2021-05-03T11:00:00")]) "Invalid feeds list" rfl rfl

end NewsfeedMediaDl
